import Mathlib

/-!
Verification of the openclaw CLI-runner core: a shallow embedding of the
backend resolver (`cli-backends`), the streaming event processors of the two
`runCliAgent` implementations (pipe-based and pty-based), the run registry
(`cli-session-map` / `runs`), abort handling, and exit-time result assembly.
JavaScript strings are modelled by Lean `String`; JS `Map`s by association
lists; handle/waiter object identity by natural-number ids; `JSON.parse` by an
explicit parse parameter.
-/

set_option maxHeartbeats 1000000
set_option maxRecDepth 8192

namespace OpenClaw

/-- JS `s.length` (code units; chars for the ASCII data considered here). -/
def jsLength (s : String) : Nat := s.data.length

/-- JS `s.slice(0, n)`. -/
def jsSlice0 (s : String) (n : Nat) : String := ⟨s.data.take n⟩

/-- JS `s.trim()`: strip leading and trailing whitespace (space, tab,
carriage return, newline). -/
def jsTrim (s : String) : String :=
  ⟨((s.data.dropWhile Char.isWhitespace).reverse.dropWhile Char.isWhitespace).reverse⟩

/-- Split a character list at every `'\n'`, keeping empty segments (the
segment list is never empty), mirroring the JS `indexOf("\n")` loop. -/
def jsSplitNl : List Char → List (List Char)
  | [] => [[]]
  | c :: rest =>
      match jsSplitNl rest with
      | [] => [[]]
      | seg :: segs => if c = '\n' then [] :: seg :: segs else (c :: seg) :: segs

/-- Whether `pat` is an initial segment of `s`. -/
def startsWithList : List Char → List Char → Bool
  | _, [] => true
  | [], _ :: _ => false
  | c :: cs, p :: ps => c = p && startsWithList cs ps

/-- Whether `pat` occurs anywhere inside `s` (JS `String.includes`). -/
def hasSubstrList : List Char → List Char → Bool
  | [], pat => pat.isEmpty
  | c :: cs, pat => startsWithList (c :: cs) pat || hasSubstrList cs pat

/-- A `type:"text"`-style entry of an `assistant` event's `message.content`
list, as read by the pty runner (`block.type`, `block.text`). An absent
`text` field is modelled by `""` (both are falsy in JS). -/
structure ContentBlock where
  type : String
  text : String
deriving DecidableEq, Repr

/-- The dynamic `result` field of a terminal `result` event: the pipe runner
reads `event.result?.text`; the pty runner accepts a plain string as well
(`typeof event.result === "string" ? event.result : event.result?.text`). -/
inductive ResultPayload where
  | str (s : String)
  | obj (text : String)
deriving DecidableEq, Repr

/-- Stream-JSON events from the backing CLI (`CliStreamEvent` in types.ts).
Absent optional string fields are modelled by `""` (falsy, like `undefined`). -/
inductive CliStreamEvent where
  | system (subtype : String) (session_id : String)
  | assistant (msgType : String) (msgText : String) (content : List ContentBlock)
  | content_block_start
  | content_block_delta (deltaType : String) (deltaText : String)
  | content_block_stop
  | tool_use
  | tool_result (content : String)
  | result (res : Option ResultPayload) (session_id : String)
  | error (message : String)
deriving DecidableEq, Repr

/-- Mutable per-run streaming state shared by both `runCliAgent`
implementations, together with the callback texts they have delivered
(`onPartialReply` / `onBlockReply` / `onToolResult`). -/
structure RunState where
  collectedTexts : List String
  currentTextBuffer : String
  resolvedSessionId : String
  partials : List String
  blocks : List String
  toolResults : List String
deriving DecidableEq, Repr

/-- Fresh streaming state at spawn time. -/
def RunState.init (sessionId : String) : RunState :=
  { collectedTexts := [], currentTextBuffer := "", resolvedSessionId := sessionId,
    partials := [], blocks := [], toolResults := [] }

/-- `event.content.length > 200 ? event.content.slice(0, 200) + "..." :
event.content` — the tool-result truncation applied identically by both
runners. -/
def toolResultSummary (content : String) : String :=
  if jsLength content > 200 then jsSlice0 content 200 ++ "..." else content

/-- `event.result?.text` as read by the pipe runner: only an object-shaped
result field yields text. -/
def pipeResultText : Option ResultPayload → String
  | some (.obj t) => t
  | _ => ""

/-- `typeof event.result === "string" ? event.result : event.result?.text` as
read by the pty runner. -/
def ptyResultText : Option ResultPayload → String
  | some (.str s) => s
  | some (.obj t) => t
  | none => ""

/-- One step of the `switch (event.type)` of the pipe-based runner
(`runCliAgent` in the `child_process` implementation): the `assistant` case
reads the flat `message.type` / `message.text` fields, and the `result` case
pushes `event.result?.text` whenever it is truthy and not already contained in
`collectedTexts`. -/
def processEventPipe (st : RunState) (ev : CliStreamEvent) : RunState :=
  match ev with
  | .system subtype session_id =>
      if subtype = "init" ∧ session_id ≠ "" then
        { st with resolvedSessionId := session_id }
      else st
  | .assistant msgType msgText _ =>
      if msgType = "text" ∧ msgText ≠ "" then
        { st with currentTextBuffer := st.currentTextBuffer ++ msgText,
                  partials := st.partials ++ [msgText] }
      else st
  | .content_block_start => st
  | .content_block_delta deltaType deltaText =>
      if deltaType = "text_delta" ∧ deltaText ≠ "" then
        { st with currentTextBuffer := st.currentTextBuffer ++ deltaText,
                  partials := st.partials ++ [deltaText] }
      else st
  | .content_block_stop =>
      if st.currentTextBuffer ≠ "" then
        { st with collectedTexts := st.collectedTexts ++ [st.currentTextBuffer],
                  blocks := st.blocks ++ [st.currentTextBuffer],
                  currentTextBuffer := "" }
      else st
  | .tool_use => st
  | .tool_result content =>
      if content ≠ "" then
        { st with toolResults := st.toolResults ++ [toolResultSummary content] }
      else st
  | .result res session_id =>
      let st := if session_id ≠ "" then { st with resolvedSessionId := session_id } else st
      if pipeResultText res ≠ "" ∧ pipeResultText res ∉ st.collectedTexts then
        { st with collectedTexts := st.collectedTexts ++ [pipeResultText res] }
      else st
  | .error message =>
      { st with collectedTexts := st.collectedTexts ++ ["Error: " ++ message] }

/-- The `for (const block of content)` loop of the pty runner's `assistant`
case: every `type:"text"` block with truthy text is appended to the buffer and
surfaced as a partial reply. -/
def foldAssistantBlocks (st : RunState) (content : List ContentBlock) : RunState :=
  content.foldl
    (fun st block =>
      if block.type = "text" ∧ block.text ≠ "" then
        { st with currentTextBuffer := st.currentTextBuffer ++ block.text,
                  partials := st.partials ++ [block.text] }
      else st)
    st

/-- One step of the `switch (event.type)` of the pty-based runner's
`processLine`: the `assistant` case walks `message.content`, and the `result`
case is a pure fallback — the result text is pushed only when
`collectedTexts.length === 0 && currentTextBuffer === ""`. -/
def processEventPty (st : RunState) (ev : CliStreamEvent) : RunState :=
  match ev with
  | .system subtype session_id =>
      if subtype = "init" ∧ session_id ≠ "" then
        { st with resolvedSessionId := session_id }
      else st
  | .assistant _ _ content => foldAssistantBlocks st content
  | .content_block_start => st
  | .content_block_delta deltaType deltaText =>
      if deltaType = "text_delta" ∧ deltaText ≠ "" then
        { st with currentTextBuffer := st.currentTextBuffer ++ deltaText,
                  partials := st.partials ++ [deltaText] }
      else st
  | .content_block_stop =>
      if st.currentTextBuffer ≠ "" then
        { st with collectedTexts := st.collectedTexts ++ [st.currentTextBuffer],
                  blocks := st.blocks ++ [st.currentTextBuffer],
                  currentTextBuffer := "" }
      else st
  | .tool_use => st
  | .tool_result content =>
      if content ≠ "" then
        { st with toolResults := st.toolResults ++ [toolResultSummary content] }
      else st
  | .result res session_id =>
      let st := if session_id ≠ "" then { st with resolvedSessionId := session_id } else st
      if st.collectedTexts = [] ∧ st.currentTextBuffer = "" then
        if ptyResultText res ≠ "" then
          { st with collectedTexts := st.collectedTexts ++ [ptyResultText res] }
        else st
      else st
  | .error message =>
      { st with collectedTexts := st.collectedTexts ++ ["Error: " ++ message] }

/-- Processing a whole event sequence with the pipe runner. -/
def processEventsPipe (st : RunState) (es : List CliStreamEvent) : RunState :=
  es.foldl processEventPipe st

/-- Processing a whole event sequence with the pty runner. -/
def processEventsPty (st : RunState) (es : List CliStreamEvent) : RunState :=
  es.foldl processEventPty st

/-- `line.replace(/\r$/, "")` — strip one trailing carriage return. -/
def stripTrailingCR (s : String) : String :=
  match s.data.getLast? with
  | some '\r' => ⟨s.data.dropLast⟩
  | _ => s

/-- The pty runner's `processLine`: skip whitespace-only lines, drop lines the
parser rejects (`JSON.parse` is external and is passed in as `parse`), feed
the parsed event to the event switch. -/
def processLinePty (parse : String → Option CliStreamEvent) (st : RunState)
    (line : String) : RunState :=
  if jsTrim line = "" then st
  else
    match parse line with
    | none => st
    | some ev => processEventPty st ev

/-- The pty transport state: the event-layer state plus the raw `dataBuffer`
holding data not yet terminated by a newline. -/
structure PtyIoState where
  run : RunState
  dataBuffer : String
deriving DecidableEq, Repr

/-- The pty runner's `onData` handler: append the chunk to `dataBuffer`, then
split off and process every complete line (stripping one trailing `\r`),
leaving the tail after the last newline buffered.  The `while
((newlineIdx = dataBuffer.indexOf("\n")) !== -1)` loop is modelled by one
split of the accumulated buffer at every newline. -/
def onDataPty (parse : String → Option CliStreamEvent) (st : PtyIoState)
    (data : String) : PtyIoState :=
  let parts := (jsSplitNl (st.dataBuffer ++ data).data).map fun l => (⟨l⟩ : String)
  let lines := parts.dropLast
  let rest := parts.getLastD ""
  { run := lines.foldl (fun r l => processLinePty parse r (stripTrailingCR l)) st.run,
    dataBuffer := rest }

/-- The pty runner's `onExit` handler, up to result assembly: process any
remaining (trimmed) buffered data as one final line, then flush a pending
`currentTextBuffer` into `collectedTexts`.  Returns the final `RunState`. -/
def onExitFlushPty (parse : String → Option CliStreamEvent) (st : PtyIoState) : RunState :=
  let st1 := if jsTrim st.dataBuffer ≠ "" then processLinePty parse st.run (jsTrim st.dataBuffer)
             else st.run
  if st1.currentTextBuffer ≠ "" then
    { st1 with collectedTexts := st1.collectedTexts ++ [st1.currentTextBuffer] }
  else st1

/-- One text payload of an `EmbeddedPiRunResult` (`isError` is absent, i.e.
`false`, for ordinary collected texts). -/
structure Payload where
  text : String
  isError : Bool
deriving DecidableEq, Repr

/-- The observable part of an `EmbeddedPiRunResult`: the payload list
(`undefined` modelled as `none`), `meta.aborted`, and the resolved session
id (wall-clock duration is omitted). -/
structure RunResultModel where
  payloads : Option (List Payload)
  aborted : Bool
  sessionId : String
deriving DecidableEq, Repr

/-- The pipe runner's `child.on("close")` handler: flush a pending
`currentTextBuffer`, map the collected texts to payloads (`undefined` when
none), and on a non-zero, non-aborted exit with buffered stderr append an
error payload built from the first 500 characters of the trimmed stderr. -/
def closeResultPipe (st : RunState) (aborted : Bool) (code : Int)
    (stderrBuffer : String) : RunResultModel :=
  let collected :=
    if st.currentTextBuffer ≠ "" then st.collectedTexts ++ [st.currentTextBuffer]
    else st.collectedTexts
  let payloads :=
    if collected ≠ [] then some (collected.map fun text => Payload.mk text false)
    else none
  if code ≠ 0 ∧ stderrBuffer ≠ "" ∧ ¬aborted then
    let errorPayload : Payload :=
      ⟨"CLI error (exit " ++ toString code ++ "): " ++ jsSlice0 (jsTrim stderrBuffer) 500, true⟩
    { payloads := some ((payloads.getD []) ++ [errorPayload]),
      aborted := aborted, sessionId := st.resolvedSessionId }
  else
    { payloads := payloads, aborted := aborted, sessionId := st.resolvedSessionId }

/-- The closure state of a run handle in either streaming runner: the
`aborted` / `isStreaming` flags and how many times the child process was
killed (`child.kill("SIGTERM")` / `pty.kill("SIGTERM")`). -/
structure AbortState where
  aborted : Bool
  isStreaming : Bool
  kills : Nat
deriving DecidableEq, Repr

/-- `handle.abort`: `if (!aborted) { aborted = true; isStreaming = false;
kill("SIGTERM"); }` — a second call finds `aborted` already set and does
nothing. -/
def abortStep (s : AbortState) : AbortState :=
  if s.aborted then s
  else { aborted := true, isStreaming := false, kills := s.kills + 1 }

/-! ### Run registry (`cli-session-map.ts`)

JS `Map`s are modelled as association lists, handle and waiter object
identity as `Nat` ids.  A waiter's pending `setTimeout` timer is an entry of
`timerSet` (removed by `clearTimeout`); a promise resolution is recorded by
appending to `resolvedLog`. -/

/-- Look up a key in an association list (JS `Map.get`). -/
def alookup {β : Type} (l : List (String × β)) (k : String) : Option β :=
  (l.find? fun kv => kv.1 = k).map (·.2)

/-- Set a key in an association list (JS `Map.set`): replace in place at an
existing key, append at a fresh one. -/
def aset {β : Type} : List (String × β) → String → β → List (String × β)
  | [], k, v => [(k, v)]
  | kv :: rest, k, v => if kv.1 = k then (k, v) :: rest else kv :: aset rest k v

/-- Delete a key from an association list (JS `Map.delete`). -/
def aerase {β : Type} (l : List (String × β)) (k : String) : List (String × β) :=
  l.filter fun kv => kv.1 ≠ k

/-- State of the run registry: `ACTIVE_CLI_RUNS`, `CLI_RUN_WAITERS` (waiter
ids with their pending timers in `timerSet`, keyed by waiter id with its
`setTimeout` duration), and the log of promise resolutions. -/
structure RegistryState where
  activeRuns : List (String × Nat)
  runWaiters : List (String × List Nat)
  timerSet : List (Nat × Int)
  resolvedLog : List (Nat × Bool)
deriving DecidableEq, Repr

/-- The empty initial registry. -/
def RegistryState.empty : RegistryState := ⟨[], [], [], []⟩

/-- `setActiveCliRun(sessionId, handle)`: register, replacing any prior
handle for the key. -/
def setActiveCliRun (st : RegistryState) (sessionId : String) (handle : Nat) :
    RegistryState :=
  { st with activeRuns := aset st.activeRuns sessionId handle }

/-- `notifyCliRunEnded(sessionId)`: when the key has waiters, drop the waiter
set, clear every waiter's timer, and resolve each with `true`. -/
def notifyCliRunEnded (st : RegistryState) (sessionId : String) : RegistryState :=
  match alookup st.runWaiters sessionId with
  | none => st
  | some ws =>
      if ws = [] then st
      else
        { st with
          runWaiters := aerase st.runWaiters sessionId,
          timerSet := st.timerSet.filter fun tv => tv.1 ∉ ws,
          resolvedLog := st.resolvedLog ++ ws.map fun w => (w, true) }

/-- `clearActiveCliRun(sessionId, handle)`: only when the registered handle is
the very same object, delete the registration and notify waiters; otherwise
the call is skipped (`reason=handle_mismatch`). -/
def clearActiveCliRun (st : RegistryState) (sessionId : String) (handle : Nat) :
    RegistryState :=
  if alookup st.activeRuns sessionId = some handle then
    notifyCliRunEnded { st with activeRuns := aerase st.activeRuns sessionId } sessionId
  else st

/-- `abortCliRun(sessionId)`: `false` without an active run, else invoke the
handle's abort (the returned handle id tells which one) and report `true`. -/
def abortCliRun (st : RegistryState) (sessionId : String) : Bool × Option Nat :=
  match alookup st.activeRuns sessionId with
  | none => (false, none)
  | some h => (true, some h)

/-- `waitForCliRunEnd(sessionId, timeoutMs = 15000)`: resolve `true` at once
when the session id is falsy or has no active run; otherwise add a fresh
waiter whose timer fires after `Math.max(100, timeoutMs)`.  The source
re-checks `ACTIVE_CLI_RUNS` right after registering (a guard against a
concurrent clear); in this sequential model the re-check sees the same map.
Returns the new state and `some b` when the promise resolved immediately. -/
def waitForCliRunEnd (st : RegistryState) (sessionId : String) (freshWaiter : Nat)
    (timeoutMs : Int := 15000) : RegistryState × Option Bool :=
  if sessionId = "" ∨ (alookup st.activeRuns sessionId).isNone then (st, some true)
  else
    let ws := (alookup st.runWaiters sessionId).getD []
    let st1 : RegistryState :=
      { st with
        runWaiters := aset st.runWaiters sessionId (ws ++ [freshWaiter]),
        timerSet := st.timerSet ++ [(freshWaiter, max 100 timeoutMs)] }
    if (alookup st1.activeRuns sessionId).isNone then
      ({ st1 with
         runWaiters := if ws = [] then aerase st1.runWaiters sessionId
                       else aset st1.runWaiters sessionId ws,
         timerSet := st.timerSet,
         resolvedLog := st1.resolvedLog ++ [(freshWaiter, true)] }, some true)
    else (st1, none)

/-- The `setTimeout` callback of a waiter: it can only run while its timer is
still pending (`clearTimeout` removes it); it removes the waiter from the
session's set (dropping the key when the set empties) and resolves `false`. -/
def fireWaiterTimeout (st : RegistryState) (sessionId : String) (waiter : Nat) :
    RegistryState :=
  if (st.timerSet.find? fun tv => tv.1 = waiter).isSome then
    let ws := ((alookup st.runWaiters sessionId).getD []).filter (· ≠ waiter)
    { st with
      runWaiters := if ws = [] then aerase st.runWaiters sessionId
                    else aset st.runWaiters sessionId ws,
      timerSet := st.timerSet.filter fun tv => tv.1 ≠ waiter,
      resolvedLog := st.resolvedLog ++ [(waiter, false)] }
  else st

/-- `queueCliMessage(sessionId, text)`: CLI mode never supports mid-run
steering. -/
def queueCliMessage (_sessionId _text : String) : Bool := false

/-! ### Exit handling and failover classification
(`cli-runner.ts` non-streaming path; `pi-cli-runner/run.ts`). -/

/-- Whether `pat` occurs inside `s` (JS `String.includes`). -/
def containsSub (s pat : String) : Bool := hasSubstrList s.data pat.data

/-- Modelled from the spec: `classifyFailoverReason` (imported from
`pi-embedded-helpers.js`, which is not part of the sources) classifies error
text against a reason taxonomy — quota exhaustion, authentication failure,
tool crash — by best-effort substring matching, and yields nothing for
unmatched text. -/
def classifyFailoverReason (errText : String) : Option String :=
  if containsSub errText "quota" ∨ containsSub errText "rate limit" then some "quota"
  else if containsSub errText "authentication" ∨ containsSub errText "unauthorized" then
    some "auth"
  else if containsSub errText "crash" then some "tool_crash"
  else none

/-- Modelled from the spec: `resolveFailoverStatus` (from
`failover-error.js`, not part of the sources) maps a classified reason to an
HTTP-like status carried by the failover error. -/
def resolveFailoverStatus (reason : String) : Nat :=
  if reason = "quota" then 429
  else if reason = "auth" then 401
  else 500

/-- The typed failover error raised by `cli-runner.ts`:
`new FailoverError(errMsg, { reason, provider, model, status })`. -/
structure FailoverErr where
  message : String
  reason : String
  provider : String
  model : String
  status : Nat
deriving DecidableEq, Repr

/-- The non-streaming exit handling of `runCliAgent` in `cli-runner.ts`
(lines around `if (result.code !== 0)`): on a non-zero exit, build the error
text from trimmed stderr, else trimmed stdout, else `"CLI failed."`, classify
it (`?? "unknown"`), and throw a `FailoverError`; on exit 0 the run
continues with the collected stdout. -/
def cliRunnerHandleExit (code : Int) (stdout stderr : String)
    (provider modelId : String) : Except FailoverErr String :=
  let stdout := jsTrim stdout
  let stderr := jsTrim stderr
  if code ≠ 0 then
    let err := if stderr ≠ "" then stderr else if stdout ≠ "" then stdout else "CLI failed."
    let reason := (classifyFailoverReason err).getD "unknown"
    let status := resolveFailoverStatus reason
    .error ⟨err, reason, provider, modelId, status⟩
  else .ok stdout

/-- The error text chosen by `cli-runner.ts` on a non-zero exit:
`stderr || stdout || "CLI failed."` over the trimmed streams. -/
def cliExitErrText (stdout stderr : String) : String :=
  if jsTrim stderr ≠ "" then jsTrim stderr
  else if jsTrim stdout ≠ "" then jsTrim stdout
  else "CLI failed."

/-- The error text chosen by `pi-cli-runner/run.ts` on a non-zero exit. -/
def piCliExitErrText (code : Int) (stdout stderr : String) : String :=
  if jsTrim stderr ≠ "" then jsTrim stderr
  else if jsTrim stdout ≠ "" then jsTrim stdout
  else "CLI exited with code " ++ toString code

/-- The exit handling of `runCliAgent` in `pi-cli-runner/run.ts`: a non-zero
exit is not raised; it returns a structured result whose sole payload carries
the error text with `isError: true` and whose `aborted` flag mirrors
`result.killed`.  On exit 0 the trimmed stdout becomes the payload
(`undefined` when empty). -/
def piCliRunResult (code : Int) (killed : Bool) (stdout stderr : String)
    (sessionId : String) : RunResultModel :=
  let stdout := jsTrim stdout
  let stderr := jsTrim stderr
  if code ≠ 0 then
    let errMsg :=
      if stderr ≠ "" then stderr
      else if stdout ≠ "" then stdout
      else "CLI exited with code " ++ toString code
    { payloads := some [⟨errMsg, true⟩], aborted := killed, sessionId := sessionId }
  else
    { payloads := if stdout ≠ "" then some [⟨stdout, false⟩] else none,
      aborted := false, sessionId := sessionId }

/-- The payload assembly of `cli-runner.ts` (`const text = output.text?.trim();
const payloads = text ? [{ text }] : undefined;`). -/
def cliRunnerAssemblePayloads (text : Option String) : Option (List Payload) :=
  match text with
  | none => none
  | some s =>
      let t := jsTrim s
      if t ≠ "" then some [⟨t, false⟩] else none

/-! ### Backend descriptors and resolution (`cli-backends.ts`)

Optional descriptor fields are `Option`s (`none` = key absent); JS objects
used as string maps are association lists. -/

/-- One per-kind streaming field-path descriptor (`streamingFormat.text` /
`.toolUse` / `.toolResult`). -/
structure StreamKindFormat where
  eventTypes : Option (List String)
  contentPath : Option String
  matchType : Option String
  textField : Option String
  idField : Option String
  nameField : Option String
  inputField : Option String
  outputField : Option String
  isErrorField : Option String
deriving DecidableEq, Repr

/-- The empty per-kind descriptor (spread of an absent object). -/
def StreamKindFormat.empty : StreamKindFormat :=
  ⟨none, none, none, none, none, none, none, none, none⟩

/-- The three per-kind streaming descriptors. -/
structure StreamFormat where
  text : Option StreamKindFormat
  toolUse : Option StreamKindFormat
  toolResult : Option StreamKindFormat
deriving DecidableEq, Repr

/-- The usage field-path table. -/
structure UsageFields where
  input : Option (List String)
  output : Option (List String)
  cacheRead : Option (List String)
  cacheWrite : Option (List String)
  total : Option (List String)
deriving DecidableEq, Repr

/-- `CliBackendConfig`: the declarative backend descriptor. -/
structure CliBackendConfig where
  command : Option String
  args : Option (List String)
  resumeArgs : Option (List String)
  output : Option String
  resumeOutput : Option String
  input : Option String
  modelArg : Option String
  modelAliases : Option (List (String × String))
  sessionArg : Option String
  sessionArgs : Option (List String)
  sessionMode : Option String
  sessionIdFields : Option (List String)
  systemPromptArg : Option String
  systemPromptMode : Option String
  systemPromptWhen : Option String
  imageArg : Option String
  imageMode : Option String
  clearEnv : Option (List String)
  env : Option (List (String × String))
  serialize : Option Bool
  streaming : Option Bool
  streamingEventTypes : Option (List String)
  streamingFormat : Option StreamFormat
  usageFields : Option UsageFields
deriving DecidableEq, Repr

/-- An all-absent descriptor, convenient for building overrides. -/
def CliBackendConfig.blank : CliBackendConfig :=
  ⟨none, none, none, none, none, none, none, none, none, none, none, none,
   none, none, none, none, none, none, none, none, none, none, none, none⟩

/-- JS object spread `{ ...b, ...o }` for string maps: base keys (with
override values where present) followed by override-only keys. -/
def mergeStrMap (b o : List (String × String)) : List (String × String) :=
  (b.map fun kv =>
    match alookup o kv.1 with
    | some v => (kv.1, v)
    | none => kv)
  ++ o.filter fun kv => (alookup b kv.1).isNone

/-- `Array.from(new Set([...a, ...b]))`: union keeping first occurrences. -/
def dedupFirst (l : List String) : List String :=
  l.foldl (fun acc x => if x ∈ acc then acc else acc ++ [x]) []

/-- `{ ...base.streamingFormat?.k, ...override.streamingFormat.k }` for one
per-kind descriptor. -/
def mergeStreamKind (b o : Option StreamKindFormat) : StreamKindFormat :=
  let b := b.getD StreamKindFormat.empty
  let o := o.getD StreamKindFormat.empty
  ⟨o.eventTypes <|> b.eventTypes, o.contentPath <|> b.contentPath,
   o.matchType <|> b.matchType, o.textField <|> b.textField,
   o.idField <|> b.idField, o.nameField <|> b.nameField,
   o.inputField <|> b.inputField, o.outputField <|> b.outputField,
   o.isErrorField <|> b.isErrorField⟩

/-- `mergeBackendConfig(base, override)`: spread semantics for scalars
(override key wins when present), `?? base` for the argument lists, shallow
map-merge for `env` / `modelAliases`, deduplicated union for `clearEnv`, and
per-kind merge for `streamingFormat` when the override supplies one. -/
def mergeBackendConfig (base : CliBackendConfig) (override : Option CliBackendConfig) :
    CliBackendConfig :=
  match override with
  | none => base
  | some o =>
      { command := o.command <|> base.command,
        args := o.args <|> base.args,
        resumeArgs := o.resumeArgs <|> base.resumeArgs,
        output := o.output <|> base.output,
        resumeOutput := o.resumeOutput <|> base.resumeOutput,
        input := o.input <|> base.input,
        modelArg := o.modelArg <|> base.modelArg,
        modelAliases := some (mergeStrMap (base.modelAliases.getD []) (o.modelAliases.getD [])),
        sessionArg := o.sessionArg <|> base.sessionArg,
        sessionArgs := o.sessionArgs <|> base.sessionArgs,
        sessionMode := o.sessionMode <|> base.sessionMode,
        sessionIdFields := o.sessionIdFields <|> base.sessionIdFields,
        systemPromptArg := o.systemPromptArg <|> base.systemPromptArg,
        systemPromptMode := o.systemPromptMode <|> base.systemPromptMode,
        systemPromptWhen := o.systemPromptWhen <|> base.systemPromptWhen,
        imageArg := o.imageArg <|> base.imageArg,
        imageMode := o.imageMode <|> base.imageMode,
        clearEnv := some (dedupFirst (base.clearEnv.getD [] ++ o.clearEnv.getD [])),
        env := some (mergeStrMap (base.env.getD []) (o.env.getD [])),
        serialize := o.serialize <|> base.serialize,
        streaming := o.streaming <|> base.streaming,
        streamingEventTypes := o.streamingEventTypes <|> base.streamingEventTypes,
        streamingFormat :=
          match o.streamingFormat with
          | some osf =>
              some ⟨some (mergeStreamKind (base.streamingFormat.bind (·.text)) osf.text),
                    some (mergeStreamKind (base.streamingFormat.bind (·.toolUse)) osf.toolUse),
                    some (mergeStreamKind (base.streamingFormat.bind (·.toolResult)) osf.toolResult)⟩
          | none => base.streamingFormat,
        usageFields := o.usageFields <|> base.usageFields }

/-- `CLAUDE_MODEL_ALIASES`. -/
def CLAUDE_MODEL_ALIASES : List (String × String) :=
  [("opus", "opus"), ("opus-4.6", "opus"), ("opus-4.5", "opus"), ("opus-4", "opus"),
   ("claude-opus-4-6", "opus"), ("claude-opus-4-5", "opus"), ("claude-opus-4", "opus"),
   ("sonnet", "sonnet"), ("sonnet-4.5", "sonnet"), ("sonnet-4.1", "sonnet"),
   ("sonnet-4.0", "sonnet"), ("claude-sonnet-4-5", "sonnet"),
   ("claude-sonnet-4-1", "sonnet"), ("claude-sonnet-4-0", "sonnet"),
   ("haiku", "haiku"), ("haiku-3.5", "haiku"), ("claude-haiku-3-5", "haiku")]

/-- `DEFAULT_CLAUDE_BACKEND`. -/
def DEFAULT_CLAUDE_BACKEND : CliBackendConfig :=
  { CliBackendConfig.blank with
    command := some "claude",
    args := some ["-p", "--output-format", "stream-json",
                  "--dangerously-skip-permissions", "--verbose"],
    resumeArgs := some ["-p", "--output-format", "stream-json",
                        "--dangerously-skip-permissions", "--verbose",
                        "--resume", "{sessionId}"],
    output := some "jsonl",
    input := some "arg",
    modelArg := some "--model",
    modelAliases := some CLAUDE_MODEL_ALIASES,
    sessionArg := some "--session-id",
    sessionMode := some "always",
    sessionIdFields := some ["session_id", "sessionId", "conversation_id", "conversationId"],
    systemPromptArg := some "--system-prompt",
    systemPromptMode := some "append",
    systemPromptWhen := some "always",
    clearEnv := some ["ANTHROPIC_API_KEY", "ANTHROPIC_API_KEY_OLD"],
    serialize := some true,
    usageFields := some ⟨some ["input_tokens", "inputTokens"],
                         some ["output_tokens", "outputTokens"],
                         some ["cache_read_input_tokens", "cached_input_tokens", "cacheRead"],
                         some ["cache_creation_input_tokens", "cache_write_input_tokens",
                               "cacheWrite"],
                         some ["total_tokens", "total"]⟩,
    streaming := some true,
    streamingEventTypes := some ["tool_use", "tool_result", "text", "result"],
    streamingFormat := some
      ⟨some { StreamKindFormat.empty with
              eventTypes := some ["assistant"], contentPath := some "message.content",
              matchType := some "text", textField := some "text" },
       some { StreamKindFormat.empty with
              eventTypes := some ["assistant"], contentPath := some "message.content",
              matchType := some "tool_use", idField := some "id",
              nameField := some "name", inputField := some "input" },
       some { StreamKindFormat.empty with
              eventTypes := some ["user"], contentPath := some "message.content",
              matchType := some "tool_result", idField := some "tool_use_id",
              outputField := some "content", isErrorField := some "is_error" }⟩ }

/-- `DEFAULT_CODEX_BACKEND`. -/
def DEFAULT_CODEX_BACKEND : CliBackendConfig :=
  { CliBackendConfig.blank with
    command := some "codex",
    args := some ["exec", "--json", "--color", "never", "--sandbox", "read-only",
                  "--skip-git-repo-check"],
    resumeArgs := some ["exec", "resume", "{sessionId}", "--color", "never",
                        "--sandbox", "read-only", "--skip-git-repo-check"],
    output := some "jsonl",
    resumeOutput := some "text",
    input := some "arg",
    modelArg := some "--model",
    sessionIdFields := some ["thread_id"],
    sessionMode := some "existing",
    imageArg := some "--image",
    imageMode := some "repeat",
    serialize := some true,
    usageFields := some ⟨some ["prompt_tokens", "input_tokens"],
                         some ["completion_tokens", "output_tokens"],
                         none, none, some ["total_tokens"]⟩,
    streaming := some true,
    streamingEventTypes := some ["item", "turn.completed"],
    streamingFormat := some
      ⟨some { StreamKindFormat.empty with
              eventTypes := some ["item.completed"], contentPath := some "item",
              matchType := some "message", textField := some "text" },
       some { StreamKindFormat.empty with
              eventTypes := some ["item.created", "item.started"], contentPath := some "item",
              matchType := some "function_call", idField := some "id",
              nameField := some "name", inputField := some "arguments" },
       some { StreamKindFormat.empty with
              eventTypes := some ["item.completed"], contentPath := some "item",
              matchType := some "function_call_output", idField := some "call_id",
              outputField := some "output" }⟩ }

/-- A resolved backend: normalized id plus merged descriptor. -/
structure ResolvedCliBackend where
  id : String
  config : CliBackendConfig
deriving DecidableEq, Repr

/-- `pickBackendConfig`: first configured entry whose normalized key matches.
`normalizeProviderId` lives outside these sources, so key normalization is an
explicit parameter. -/
def pickBackendConfig (normalize : String → String)
    (configured : List (String × CliBackendConfig)) (normalizedId : String) :
    Option CliBackendConfig :=
  (configured.find? fun kv => normalize kv.1 = normalizedId).map (·.2)

/-- `resolveCliBackendConfig(provider, cfg)`: resolve the two built-ins by
merging their defaults with any override, other ids only from an override;
fail (`null`) when the merged command is absent or trims to the empty
string. -/
def resolveCliBackendConfig (normalize : String → String) (provider : String)
    (configured : List (String × CliBackendConfig)) : Option ResolvedCliBackend :=
  let normalized := normalize provider
  let override := pickBackendConfig normalize configured normalized
  if normalized = "claude-cli" then
    let merged := mergeBackendConfig DEFAULT_CLAUDE_BACKEND override
    match merged.command with
    | none => none
    | some c =>
        let command := jsTrim c
        if command = "" then none
        else some ⟨normalized, { merged with command := some command }⟩
  else if normalized = "codex-cli" then
    let merged := mergeBackendConfig DEFAULT_CODEX_BACKEND override
    match merged.command with
    | none => none
    | some c =>
        let command := jsTrim c
        if command = "" then none
        else some ⟨normalized, { merged with command := some command }⟩
  else
    match override with
    | none => none
    | some ov =>
        match ov.command with
        | none => none
        | some c =>
            let command := jsTrim c
            if command = "" then none
            else some ⟨normalized, { ov with command := some command }⟩

/-! ### Helper lemmas -/

theorem jsLength_append (a b : String) : jsLength (a ++ b) = jsLength a + jsLength b := by
  cases a with
  | mk la =>
    cases b with
    | mk lb => simp [jsLength, String.append]

theorem jsLength_jsSlice0 (s : String) (n : Nat) :
    jsLength (jsSlice0 s n) = min n (jsLength s) := by
  simp [jsLength, jsSlice0]

theorem ne_empty_of_jsLength_pos {s : String} (h : 0 < jsLength s) : s ≠ "" := by
  intro he
  subst he
  simp [jsLength] at h

/-- C5: tool-result text longer than 200 characters is delivered (by both
runners) as its first 200 characters plus the `"..."` marker — 203 characters
total, ending in the marker; text of 200 characters or fewer is delivered
unchanged. -/
theorem c5_tool_result_truncation (st : RunState) (content : String) :
    (jsLength content > 200 →
        (processEventPty st (.tool_result content)).toolResults
            = st.toolResults ++ [jsSlice0 content 200 ++ "..."] ∧
        (processEventPipe st (.tool_result content)).toolResults
            = st.toolResults ++ [jsSlice0 content 200 ++ "..."] ∧
        jsLength (jsSlice0 content 200 ++ "...") = 203 ∧
        ∃ t, jsSlice0 content 200 ++ "..." = t ++ "...") ∧
    (0 < jsLength content → jsLength content ≤ 200 →
        (processEventPty st (.tool_result content)).toolResults
            = st.toolResults ++ [content] ∧
        (processEventPipe st (.tool_result content)).toolResults
            = st.toolResults ++ [content]) := by
  constructor
  · intro hgt
    have hne : content ≠ "" := ne_empty_of_jsLength_pos (by omega)
    refine ⟨?_, ?_, ?_, ⟨jsSlice0 content 200, rfl⟩⟩
    · simp [processEventPty, hne, toolResultSummary, hgt]
    · simp [processEventPipe, hne, toolResultSummary, hgt]
    · rw [jsLength_append, jsLength_jsSlice0]
      have : jsLength "..." = 3 := rfl
      omega
  · intro hpos hle
    have hne : content ≠ "" := ne_empty_of_jsLength_pos hpos
    have hngt : ¬ jsLength content > 200 := by omega
    constructor
    · simp [processEventPty, hne, toolResultSummary, hngt]
    · simp [processEventPipe, hne, toolResultSummary, hngt]

/-- Witness for C5 at a 201-character tool-result and at `"abc"`. -/
theorem c5_tool_result_truncation_witness :
    (processEventPty (RunState.init "s") (.tool_result ⟨List.replicate 201 'a'⟩)).toolResults
        = [⟨List.replicate 200 'a'⟩ ++ "..."] ∧
    jsLength (jsSlice0 (⟨List.replicate 201 'a'⟩ : String) 200 ++ "...") = 203 ∧
    (processEventPipe (RunState.init "s") (.tool_result "abc")).toolResults = ["abc"] := by
  have hgt : jsLength (⟨List.replicate 201 'a'⟩ : String) > 200 := by
    simp [jsLength]
  have h1 := (c5_tool_result_truncation (RunState.init "s") ⟨List.replicate 201 'a'⟩).1 hgt
  have h2 := (c5_tool_result_truncation (RunState.init "s") "abc").2 (by decide) (by decide)
  refine ⟨?_, h1.2.2.1, ?_⟩
  · rw [h1.1]
    simp [RunState.init, jsSlice0]
  · rw [h2.2]
    simp [RunState.init]

/-- C8: a second immediate `abort()` on one run is a no-op — the child is
killed exactly once, the handle ends up aborted and not streaming, and the
result assembled at close reports `aborted = true`. -/
theorem c8_abort_idempotent (s : AbortState) (h : s.aborted = false) :
    (abortStep (abortStep s)).kills = s.kills + 1 ∧
    abortStep (abortStep s) = abortStep s ∧
    (abortStep s).aborted = true ∧
    (abortStep s).isStreaming = false ∧
    ∀ st code stderr,
      (closeResultPipe st (abortStep (abortStep s)).aborted code stderr).aborted = true := by
  refine ⟨?_, ?_, ?_, ?_, ?_⟩
  · simp [abortStep, h]
  · simp [abortStep, h]
  · simp [abortStep, h]
  · simp [abortStep, h]
  · intro st code stderr
    have habort : (abortStep (abortStep s)).aborted = true := by simp [abortStep, h]
    rw [habort]
    simp [closeResultPipe]

/-- Witness for C8 from the fresh handle state. -/
theorem c8_abort_idempotent_witness :
    (abortStep (abortStep ⟨false, true, 0⟩)).kills = 1 ∧
    (closeResultPipe (RunState.init "s") (abortStep (abortStep ⟨false, true, 0⟩)).aborted 0
        "").aborted = true := by
  have h := c8_abort_idempotent ⟨false, true, 0⟩ rfl
  exact ⟨h.1, h.2.2.2.2 (RunState.init "s") 0 ""⟩

theorem alookup_aerase_self {β : Type} (l : List (String × β)) (k : String) :
    alookup (aerase l k) k = none := by
  induction l with
  | nil => rfl
  | cons x xs ih =>
    by_cases hx : x.1 = k
    · simp only [aerase, List.filter_cons]
      rw [if_neg (by simp [hx])]
      simp only [aerase] at ih
      exact ih
    · simp only [aerase, List.filter_cons]
      rw [if_pos (by simp [hx])]
      simp only [aerase] at ih
      simp only [alookup] at ih ⊢
      rw [List.find?_cons_of_neg _ (by simp [hx])]
      exact ih

theorem alookup_aset_self {β : Type} (l : List (String × β)) (k : String) (v : β) :
    alookup (aset l k v) k = some v := by
  induction l with
  | nil => simp [aset, alookup]
  | cons x xs ih =>
    by_cases hx : x.1 = k
    · simp [aset, alookup, hx]
    · simpa [aset, alookup, hx] using ih

theorem notify_activeRuns (st : RegistryState) (sid : String) :
    (notifyCliRunEnded st sid).activeRuns = st.activeRuns := by
  unfold notifyCliRunEnded
  split
  · rfl
  · split <;> rfl

theorem notify_resolved (st : RegistryState) (sid : String) :
    ∀ w ∈ (alookup st.runWaiters sid).getD [],
      (w, true) ∈ (notifyCliRunEnded st sid).resolvedLog := by
  intro w hw
  unfold notifyCliRunEnded
  cases hws : alookup st.runWaiters sid with
  | none =>
      rw [hws] at hw
      simp at hw
  | some ws =>
      rw [hws] at hw
      simp only [Option.getD_some] at hw
      by_cases hempty : ws = []
      · subst hempty
        simp at hw
      · simp only [hws, hempty, if_neg, ite_false]
        refine List.mem_append_right _ ?_
        exact List.mem_map.mpr ⟨w, hw, rfl⟩

/-- C1: `clearActiveCliRun(sessionId, handle)` deletes the registration and
releases the waiters only when the supplied handle is the identical one
currently registered; with a different (newer) handle registered, the call
leaves the registry completely unchanged. -/
theorem c1_clear_handle_identity (st : RegistryState) (sid : String) (h h2 : Nat) :
    (alookup st.activeRuns sid = some h →
        alookup (clearActiveCliRun st sid h).activeRuns sid = none ∧
        ∀ w ∈ (alookup st.runWaiters sid).getD [],
          (w, true) ∈ (clearActiveCliRun st sid h).resolvedLog) ∧
    (alookup st.activeRuns sid = some h2 → h2 ≠ h →
        clearActiveCliRun st sid h = st) := by
  constructor
  · intro hreg
    unfold clearActiveCliRun
    rw [if_pos hreg]
    constructor
    · rw [notify_activeRuns]
      exact alookup_aerase_self _ _
    · intro w hw
      exact notify_resolved _ sid w hw
  · intro hreg hne
    unfold clearActiveCliRun
    rw [if_neg]
    rw [hreg]
    intro hc
    exact hne (Option.some.inj hc)

/-- Witness for C1: with run 1 superseded by run 2 on session `"s"`, run 1's
stale clear is a no-op and run 2 stays registered; a matching clear on
session `"t"` removes the registration. -/
theorem c1_clear_handle_identity_witness :
    clearActiveCliRun (setActiveCliRun (setActiveCliRun RegistryState.empty "s" 1) "s" 2) "s" 1
        = setActiveCliRun (setActiveCliRun RegistryState.empty "s" 1) "s" 2 ∧
    alookup (setActiveCliRun (setActiveCliRun RegistryState.empty "s" 1) "s" 2).activeRuns "s"
        = some 2 ∧
    alookup (clearActiveCliRun (setActiveCliRun RegistryState.empty "t" 3) "t" 3).activeRuns "t"
        = none := by
  refine ⟨?_, by decide, ?_⟩
  · exact (c1_clear_handle_identity
      (setActiveCliRun (setActiveCliRun RegistryState.empty "s" 1) "s" 2) "s" 1 2).2
      (by decide) (by decide)
  · exact ((c1_clear_handle_identity
      (setActiveCliRun RegistryState.empty "t" 3) "t" 3 0).1 (by decide)).1

/-- C4 (amended): `waitForCliRunEnd` resolves `true` immediately when no run
is active for the key (and also whenever the key is the empty string);
with an active run under a non-empty key it registers a waiter whose timer
duration is `max 100 timeoutMs` (default `15000`); a matching clear releases
every registered waiter with `true`; a firing timer resolves its waiter with
`false`. -/
theorem c4_wait_for_end (st : RegistryState) (sid : String) (h w : Nat) (t : Int) :
    (alookup st.activeRuns sid = none → waitForCliRunEnd st sid w t = (st, some true)) ∧
    (sid ≠ "" → alookup st.activeRuns sid = some h →
        (waitForCliRunEnd st sid w t).2 = none ∧
        alookup (waitForCliRunEnd st sid w t).1.runWaiters sid
            = some (((alookup st.runWaiters sid).getD []) ++ [w]) ∧
        (w, max 100 t) ∈ (waitForCliRunEnd st sid w t).1.timerSet) ∧
    waitForCliRunEnd st sid w = waitForCliRunEnd st sid w 15000 ∧
    (alookup st.activeRuns sid = some h →
        ∀ w' ∈ (alookup st.runWaiters sid).getD [],
          (w', true) ∈ (clearActiveCliRun st sid h).resolvedLog) ∧
    ((st.timerSet.find? fun tv => tv.1 = w).isSome →
        (w, false) ∈ (fireWaiterTimeout st sid w).resolvedLog) := by
  refine ⟨?_, ?_, rfl, ?_, ?_⟩
  · intro hnone
    simp [waitForCliRunEnd, hnone]
  · intro hsid hreg
    have hcond : ¬ (sid = "" ∨ (alookup st.activeRuns sid).isNone) := by
      simp [hsid, hreg]
    refine ⟨?_, ?_, ?_⟩
    · simp only [waitForCliRunEnd]
      rw [if_neg hcond]
      simp [hreg]
    · simp only [waitForCliRunEnd]
      rw [if_neg hcond]
      simp only [hreg]
      rw [if_neg (by simp [hreg])]
      exact alookup_aset_self _ _ _
    · simp only [waitForCliRunEnd]
      rw [if_neg hcond]
      simp only [hreg]
      rw [if_neg (by simp [hreg])]
      simp
  · intro hreg w' hw'
    unfold clearActiveCliRun
    rw [if_pos hreg]
    exact notify_resolved _ sid w' hw'
  · intro hpending
    unfold fireWaiterTimeout
    rw [if_pos hpending]
    simp

/-- Witness for C4: an inactive key resolves immediately; an active key
registers a waiter with the 100 ms floor applied to a 50 ms timeout; the
matching clear then releases that waiter with `true`; alternatively its
timer fires and resolves it with `false`. -/
theorem c4_wait_for_end_witness :
    waitForCliRunEnd RegistryState.empty "x" 9 500 = (RegistryState.empty, some true) ∧
    (waitForCliRunEnd (setActiveCliRun RegistryState.empty "s" 1) "s" 10 50).2 = none ∧
    (10, 100) ∈ (waitForCliRunEnd (setActiveCliRun RegistryState.empty "s" 1) "s" 10 50).1.timerSet ∧
    (10, true) ∈ (clearActiveCliRun
        (waitForCliRunEnd (setActiveCliRun RegistryState.empty "s" 1) "s" 10 50).1 "s"
        1).resolvedLog ∧
    (10, false) ∈ (fireWaiterTimeout
        (waitForCliRunEnd (setActiveCliRun RegistryState.empty "s" 1) "s" 10 50).1 "s"
        10).resolvedLog := by
  refine ⟨?_, ?_, ?_, ?_, ?_⟩
  · exact (c4_wait_for_end RegistryState.empty "x" 0 9 500).1 (by decide)
  · exact ((c4_wait_for_end (setActiveCliRun RegistryState.empty "s" 1) "s" 1 10 50).2.1
      (by decide) (by decide)).1
  · have := ((c4_wait_for_end (setActiveCliRun RegistryState.empty "s" 1) "s" 1 10 50).2.1
      (by decide) (by decide)).2.2
    simpa using this
  · exact (c4_wait_for_end
      (waitForCliRunEnd (setActiveCliRun RegistryState.empty "s" 1) "s" 10 50).1 "s" 1 10
      50).2.2.2.1 (by decide) 10 (by decide)
  · exact (c4_wait_for_end
      (waitForCliRunEnd (setActiveCliRun RegistryState.empty "s" 1) "s" 10 50).1 "s" 1 10
      50).2.2.2.2 (by decide)

/-- C4 counterexample: with a run registered under the empty-string session
key, `waitForCliRunEnd` still resolves `true` immediately instead of waiting
for clear or timeout — the `!sessionId` guard fires before the active-run
check. -/
theorem c4_wait_for_end_counterexample :
    alookup (setActiveCliRun RegistryState.empty "" 5).activeRuns "" = some 5 ∧
    waitForCliRunEnd (setActiveCliRun RegistryState.empty "" 5) "" 7 20000
        = (setActiveCliRun RegistryState.empty "" 5, some true) := by
  constructor
  · decide
  · simp [waitForCliRunEnd]

/-- C6: with no override, each built-in backend id resolves to a descriptor
with a non-empty command (`claude` / `codex`); an id that is neither built-in
nor overridden fails to resolve, as does any id whose merged command is
absent or trims to the empty string. -/
theorem c6_backend_resolution (normalize : String → String)
    (configured : List (String × CliBackendConfig)) (provider : String) :
    (normalize provider = "claude-cli" →
        pickBackendConfig normalize configured "claude-cli" = none →
        ∃ r, resolveCliBackendConfig normalize provider configured = some r ∧
            r.config.command = some "claude") ∧
    (normalize provider = "codex-cli" →
        pickBackendConfig normalize configured "codex-cli" = none →
        ∃ r, resolveCliBackendConfig normalize provider configured = some r ∧
            r.config.command = some "codex") ∧
    (normalize provider ≠ "claude-cli" → normalize provider ≠ "codex-cli" →
        pickBackendConfig normalize configured (normalize provider) = none →
        resolveCliBackendConfig normalize provider configured = none) ∧
    (∀ ov, normalize provider ≠ "claude-cli" → normalize provider ≠ "codex-cli" →
        pickBackendConfig normalize configured (normalize provider) = some ov →
        (ov.command = none ∨ ∃ c, ov.command = some c ∧ jsTrim c = "") →
        resolveCliBackendConfig normalize provider configured = none) ∧
    (∀ ov c, normalize provider = "claude-cli" →
        pickBackendConfig normalize configured "claude-cli" = some ov →
        ov.command = some c → jsTrim c = "" →
        resolveCliBackendConfig normalize provider configured = none) := by
  refine ⟨?_, ?_, ?_, ?_, ?_⟩
  · intro hnorm hpick
    refine ⟨⟨"claude-cli", { mergeBackendConfig DEFAULT_CLAUDE_BACKEND none with
        command := some "claude" }⟩, ?_, rfl⟩
    simp only [resolveCliBackendConfig, hnorm, hpick]
    rfl
  · intro hnorm hpick
    refine ⟨⟨"codex-cli", { mergeBackendConfig DEFAULT_CODEX_BACKEND none with
        command := some "codex" }⟩, ?_, rfl⟩
    simp only [resolveCliBackendConfig, hnorm, hpick]
    rfl
  · intro hne1 hne2 hpick
    simp only [resolveCliBackendConfig, hpick]
    rw [if_neg hne1, if_neg hne2]
  · intro ov hne1 hne2 hpick hcmd
    simp only [resolveCliBackendConfig, hpick]
    rw [if_neg hne1, if_neg hne2]
    rcases hcmd with hnone | ⟨c, hsome, htrim⟩
    · simp [hnone]
    · simp [hsome, htrim]
  · intro ov c hnorm hpick hsome htrim
    simp only [resolveCliBackendConfig, hnorm, hpick]
    simp [mergeBackendConfig, hsome, htrim]

/-- Witness for C6: both built-ins resolve with their default commands under
the identity normalizer and an empty override table; `mystery-cli` does not
resolve; a claude override with a whitespace command makes resolution fail. -/
theorem c6_backend_resolution_witness :
    (∃ r, resolveCliBackendConfig id "claude-cli" [] = some r ∧
        r.config.command = some "claude") ∧
    (∃ r, resolveCliBackendConfig id "codex-cli" [] = some r ∧
        r.config.command = some "codex") ∧
    resolveCliBackendConfig id "mystery-cli" [] = none ∧
    resolveCliBackendConfig id "claude-cli"
        [("claude-cli", { CliBackendConfig.blank with command := some "   " })] = none := by
  refine ⟨?_, ?_, ?_, ?_⟩
  · exact (c6_backend_resolution id [] "claude-cli").1 rfl rfl
  · exact (c6_backend_resolution id [] "codex-cli").2.1 rfl rfl
  · exact (c6_backend_resolution id [] "mystery-cli").2.2.1 (by decide) (by decide) rfl
  · exact (c6_backend_resolution id
        [("claude-cli", { CliBackendConfig.blank with command := some "   " })]
        "claude-cli").2.2.2.2 { CliBackendConfig.blank with command := some "   " } "   "
        rfl (by rfl) rfl (by decide)

/-- C7 (amended): in `cli-runner.ts` a non-zero exit raises a typed
`FailoverError` whose reason is classified from the error text and falls back
to `unknown` when nothing matches; in `pi-cli-runner/run.ts` a non-zero exit
instead returns a structured result carrying the error text as an error
payload, with `aborted` mirroring `killed`. -/
theorem c7_nonzero_exit_failover (code : Int) (stdout stderr provider modelId sid : String)
    (killed : Bool) (hc : code ≠ 0) :
    (∃ e, cliRunnerHandleExit code stdout stderr provider modelId = .error e ∧
        e.message = cliExitErrText stdout stderr ∧
        e.reason = (classifyFailoverReason (cliExitErrText stdout stderr)).getD "unknown" ∧
        e.provider = provider ∧ e.model = modelId ∧
        e.status = resolveFailoverStatus e.reason ∧
        (classifyFailoverReason (cliExitErrText stdout stderr) = none →
            e.reason = "unknown")) ∧
    piCliRunResult code killed stdout stderr sid
        = { payloads := some [⟨piCliExitErrText code stdout stderr, true⟩],
            aborted := killed, sessionId := sid } := by
  constructor
  · refine ⟨⟨cliExitErrText stdout stderr,
        (classifyFailoverReason (cliExitErrText stdout stderr)).getD "unknown",
        provider, modelId,
        resolveFailoverStatus
          ((classifyFailoverReason (cliExitErrText stdout stderr)).getD "unknown")⟩,
      ?_, rfl, rfl, rfl, rfl, rfl, ?_⟩
    · simp only [cliRunnerHandleExit, cliExitErrText]
      rw [if_pos hc]
    · intro hnone
      rw [hnone]
      rfl
  · simp only [piCliRunResult, piCliExitErrText]
    rw [if_pos hc]

/-- Witness for C7 at exit code 1 with an authentication-failure phrase on
stderr. -/
theorem c7_nonzero_exit_failover_witness :
    (∃ e, cliRunnerHandleExit 1 "" "authentication failed" "claude-cli" "opus" = .error e ∧
        e.message = cliExitErrText "" "authentication failed" ∧
        e.reason = (classifyFailoverReason
            (cliExitErrText "" "authentication failed")).getD "unknown" ∧
        e.provider = "claude-cli" ∧ e.model = "opus" ∧
        e.status = resolveFailoverStatus e.reason ∧
        (classifyFailoverReason (cliExitErrText "" "authentication failed") = none →
            e.reason = "unknown")) ∧
    piCliRunResult 1 false "" "authentication failed" "s"
        = { payloads := some [⟨piCliExitErrText 1 "" "authentication failed", true⟩],
            aborted := false, sessionId := "s" } :=
  c7_nonzero_exit_failover 1 "" "authentication failed" "claude-cli" "opus" "s" false
    (by decide)

/-- C7 counterexample: `pi-cli-runner/run.ts` does not raise on a non-zero,
non-aborted exit with unrecognized stderr — it returns an ordinary structured
result carrying the text as an error payload. -/
theorem c7_nonzero_exit_failover_counterexample :
    piCliRunResult 1 false "" "mysterious gibberish" "s"
        = { payloads := some [⟨"mysterious gibberish", true⟩], aborted := false,
            sessionId := "s" } ∧
    classifyFailoverReason "mysterious gibberish" = none := by
  constructor
  · decide
  · decide

/-! ### C2: concatenation of partial-reply texts vs the block-reply text -/

/-- The concatenation of a list of delivered texts. -/
def concatTexts (l : List String) : String := l.foldr (· ++ ·) ""

theorem strData_append (a b : String) : (a ++ b).data = a.data ++ b.data := by
  cases a
  cases b
  rfl

theorem strMk_data (s : String) : (⟨s.data⟩ : String) = s := by
  cases s
  rfl

theorem strEmpty_append (s : String) : ("" : String) ++ s = s := by
  cases s
  rfl

theorem strAppend_empty (s : String) : s ++ "" = s := by
  cases s with
  | mk l =>
    show String.mk (l ++ []) = String.mk l
    rw [List.append_nil]

theorem strAppend_assoc (a b c : String) : a ++ b ++ c = a ++ (b ++ c) := by
  cases a with
  | mk la =>
    cases b with
    | mk lb =>
      cases c with
      | mk lc =>
        show String.mk (la ++ lb ++ lc) = String.mk (la ++ (lb ++ lc))
        rw [List.append_assoc]

theorem concatTexts_nil : concatTexts [] = "" := rfl

theorem concatTexts_cons (t : String) (l : List String) :
    concatTexts (t :: l) = t ++ concatTexts l := rfl

theorem concatTexts_append (l1 l2 : List String) :
    concatTexts (l1 ++ l2) = concatTexts l1 ++ concatTexts l2 := by
  induction l1 with
  | nil => rw [List.nil_append, concatTexts_nil, strEmpty_append]
  | cons t rest ih =>
      rw [List.cons_append, concatTexts_cons, concatTexts_cons, ih, strAppend_assoc]

theorem concatTexts_single (t : String) : concatTexts [t] = t := by
  rw [concatTexts_cons, concatTexts_nil, strAppend_empty]

theorem foldAssistantBlocks_step (content : List ContentBlock) : ∀ st : RunState,
    ∃ d, (foldAssistantBlocks st content).partials = st.partials ++ d ∧
      (foldAssistantBlocks st content).currentTextBuffer
          = st.currentTextBuffer ++ concatTexts d ∧
      (foldAssistantBlocks st content).blocks = st.blocks ∧
      (foldAssistantBlocks st content).collectedTexts = st.collectedTexts := by
  induction content with
  | nil =>
      intro st
      exact ⟨[], by simp [foldAssistantBlocks], by
        simp [foldAssistantBlocks, concatTexts_nil, strAppend_empty], rfl, rfl⟩
  | cons b rest ih =>
      intro st
      by_cases hb : b.type = "text" ∧ b.text ≠ ""
      · obtain ⟨d, h1, h2, h3, h4⟩ := ih
          { st with currentTextBuffer := st.currentTextBuffer ++ b.text,
                    partials := st.partials ++ [b.text] }
        refine ⟨b.text :: d, ?_, ?_, ?_, ?_⟩
        · have : foldAssistantBlocks st (b :: rest)
              = foldAssistantBlocks
                  { st with currentTextBuffer := st.currentTextBuffer ++ b.text,
                            partials := st.partials ++ [b.text] } rest := by
            simp [foldAssistantBlocks, hb]
          rw [this, h1]
          simp
        · have : foldAssistantBlocks st (b :: rest)
              = foldAssistantBlocks
                  { st with currentTextBuffer := st.currentTextBuffer ++ b.text,
                            partials := st.partials ++ [b.text] } rest := by
            simp [foldAssistantBlocks, hb]
          rw [this, h2, concatTexts_cons, strAppend_assoc]
        · have : foldAssistantBlocks st (b :: rest)
              = foldAssistantBlocks
                  { st with currentTextBuffer := st.currentTextBuffer ++ b.text,
                            partials := st.partials ++ [b.text] } rest := by
            simp [foldAssistantBlocks, hb]
          rw [this, h3]
        · have : foldAssistantBlocks st (b :: rest)
              = foldAssistantBlocks
                  { st with currentTextBuffer := st.currentTextBuffer ++ b.text,
                            partials := st.partials ++ [b.text] } rest := by
            simp [foldAssistantBlocks, hb]
          rw [this, h4]
      · obtain ⟨d, h1, h2, h3, h4⟩ := ih st
        have hstep : foldAssistantBlocks st (b :: rest) = foldAssistantBlocks st rest := by
          simp [foldAssistantBlocks, hb]
        exact ⟨d, by rw [hstep, h1], by rw [hstep, h2], by rw [hstep, h3], by rw [hstep, h4]⟩

theorem processEventPty_step (st : RunState) (e : CliStreamEvent)
    (hne : e ≠ .content_block_stop) :
    ∃ d, (processEventPty st e).partials = st.partials ++ d ∧
      (processEventPty st e).currentTextBuffer = st.currentTextBuffer ++ concatTexts d ∧
      (processEventPty st e).blocks = st.blocks := by
  cases e with
  | system subtype sid =>
      refine ⟨[], ?_, ?_, ?_⟩ <;>
        (simp only [processEventPty]; split <;>
          simp [concatTexts_nil, strAppend_empty])
  | assistant mt mx content =>
      obtain ⟨d, h1, h2, h3, _⟩ := foldAssistantBlocks_step content st
      exact ⟨d, h1, h2, h3⟩
  | content_block_start =>
      exact ⟨[], by simp [processEventPty], by
        simp [processEventPty, concatTexts_nil, strAppend_empty], rfl⟩
  | content_block_delta dt t =>
      by_cases hc : dt = "text_delta" ∧ t ≠ ""
      · refine ⟨[t], ?_, ?_, ?_⟩ <;>
          simp [processEventPty, hc, concatTexts_single]
      · refine ⟨[], ?_, ?_, ?_⟩ <;>
          simp [processEventPty, hc, concatTexts_nil, strAppend_empty]
  | content_block_stop => exact absurd rfl hne
  | tool_use =>
      exact ⟨[], by simp [processEventPty], by
        simp [processEventPty, concatTexts_nil, strAppend_empty], rfl⟩
  | tool_result content =>
      refine ⟨[], ?_, ?_, ?_⟩ <;>
        (simp only [processEventPty]; split <;>
          simp [concatTexts_nil, strAppend_empty])
  | result res sid =>
      refine ⟨[], ?_, ?_, ?_⟩ <;>
        (simp only [processEventPty]; split <;> split <;>
          first
            | (split <;> simp [concatTexts_nil, strAppend_empty])
            | simp [concatTexts_nil, strAppend_empty])
  | error message =>
      exact ⟨[], by simp [processEventPty], by
        simp [processEventPty, concatTexts_nil, strAppend_empty], by simp [processEventPty]⟩

theorem processEventPipe_step (st : RunState) (e : CliStreamEvent)
    (hne : e ≠ .content_block_stop) :
    ∃ d, (processEventPipe st e).partials = st.partials ++ d ∧
      (processEventPipe st e).currentTextBuffer = st.currentTextBuffer ++ concatTexts d ∧
      (processEventPipe st e).blocks = st.blocks := by
  cases e with
  | system subtype sid =>
      refine ⟨[], ?_, ?_, ?_⟩ <;>
        (simp only [processEventPipe]; split <;>
          simp [concatTexts_nil, strAppend_empty])
  | assistant mt mx content =>
      by_cases hc : mt = "text" ∧ mx ≠ ""
      · refine ⟨[mx], ?_, ?_, ?_⟩ <;>
          simp [processEventPipe, hc, concatTexts_single]
      · refine ⟨[], ?_, ?_, ?_⟩ <;>
          simp [processEventPipe, hc, concatTexts_nil, strAppend_empty]
  | content_block_start =>
      exact ⟨[], by simp [processEventPipe], by
        simp [processEventPipe, concatTexts_nil, strAppend_empty], rfl⟩
  | content_block_delta dt t =>
      by_cases hc : dt = "text_delta" ∧ t ≠ ""
      · refine ⟨[t], ?_, ?_, ?_⟩ <;>
          simp [processEventPipe, hc, concatTexts_single]
      · refine ⟨[], ?_, ?_, ?_⟩ <;>
          simp [processEventPipe, hc, concatTexts_nil, strAppend_empty]
  | content_block_stop => exact absurd rfl hne
  | tool_use =>
      exact ⟨[], by simp [processEventPipe], by
        simp [processEventPipe, concatTexts_nil, strAppend_empty], rfl⟩
  | tool_result content =>
      refine ⟨[], ?_, ?_, ?_⟩ <;>
        (simp only [processEventPipe]; split <;>
          simp [concatTexts_nil, strAppend_empty])
  | result res sid =>
      refine ⟨[], ?_, ?_, ?_⟩ <;>
        (simp only [processEventPipe]; split <;> split <;>
          simp [concatTexts_nil, strAppend_empty])
  | error message =>
      exact ⟨[], by simp [processEventPipe], by
        simp [processEventPipe, concatTexts_nil, strAppend_empty], by simp [processEventPipe]⟩

theorem processEventsPty_no_stop (es : List CliStreamEvent) : ∀ st : RunState,
    (∀ e ∈ es, e ≠ CliStreamEvent.content_block_stop) →
    ∃ new, (processEventsPty st es).partials = st.partials ++ new ∧
      (processEventsPty st es).currentTextBuffer
          = st.currentTextBuffer ++ concatTexts new ∧
      (processEventsPty st es).blocks = st.blocks := by
  induction es with
  | nil =>
      intro st _
      exact ⟨[], by simp [processEventsPty], by
        simp [processEventsPty, concatTexts_nil, strAppend_empty], rfl⟩
  | cons e rest ih =>
      intro st hns
      obtain ⟨d, hd1, hd2, hd3⟩ := processEventPty_step st e (hns e (by simp))
      obtain ⟨new, h1, h2, h3⟩ :=
        ih (processEventPty st e) (fun x hx => hns x (by simp [hx]))
      have hstep : processEventsPty st (e :: rest)
          = processEventsPty (processEventPty st e) rest := rfl
      refine ⟨d ++ new, ?_, ?_, ?_⟩
      · rw [hstep, h1, hd1, List.append_assoc]
      · rw [hstep, h2, hd2, concatTexts_append, strAppend_assoc]
      · rw [hstep, h3, hd3]

theorem processEventsPipe_no_stop (es : List CliStreamEvent) : ∀ st : RunState,
    (∀ e ∈ es, e ≠ CliStreamEvent.content_block_stop) →
    ∃ new, (processEventsPipe st es).partials = st.partials ++ new ∧
      (processEventsPipe st es).currentTextBuffer
          = st.currentTextBuffer ++ concatTexts new ∧
      (processEventsPipe st es).blocks = st.blocks := by
  induction es with
  | nil =>
      intro st _
      exact ⟨[], by simp [processEventsPipe], by
        simp [processEventsPipe, concatTexts_nil, strAppend_empty], rfl⟩
  | cons e rest ih =>
      intro st hns
      obtain ⟨d, hd1, hd2, hd3⟩ := processEventPipe_step st e (hns e (by simp))
      obtain ⟨new, h1, h2, h3⟩ :=
        ih (processEventPipe st e) (fun x hx => hns x (by simp [hx]))
      have hstep : processEventsPipe st (e :: rest)
          = processEventsPipe (processEventPipe st e) rest := rfl
      refine ⟨d ++ new, ?_, ?_, ?_⟩
      · rw [hstep, h1, hd1, List.append_assoc]
      · rw [hstep, h2, hd2, concatTexts_append, strAppend_assoc]
      · rw [hstep, h3, hd3]

/-- C2: starting from an empty text buffer, for a block consisting of events
with no block-stop among them followed by exactly one block-stop, the text
delivered through the block-reply callback at the stop equals, character for
character, the concatenation of the texts delivered through the per-delta
partial-reply callback during the block — in both runners. -/
theorem c2_partials_concat_block (st : RunState) (es : List CliStreamEvent)
    (hb : st.currentTextBuffer = "")
    (hns : ∀ e ∈ es, e ≠ CliStreamEvent.content_block_stop) :
    (concatTexts ((processEventsPty st es).partials.drop st.partials.length) ≠ "" →
        (processEventPty (processEventsPty st es) .content_block_stop).blocks
          = st.blocks
            ++ [concatTexts ((processEventsPty st es).partials.drop st.partials.length)]) ∧
    (concatTexts ((processEventsPipe st es).partials.drop st.partials.length) ≠ "" →
        (processEventPipe (processEventsPipe st es) .content_block_stop).blocks
          = st.blocks
            ++ [concatTexts ((processEventsPipe st es).partials.drop st.partials.length)]) := by
  constructor
  · obtain ⟨new, h1, h2, h3⟩ := processEventsPty_no_stop es st hns
    have hdrop : (processEventsPty st es).partials.drop st.partials.length = new := by
      rw [h1]
      exact List.drop_left _ _
    rw [hdrop]
    intro hcne
    have hbuf : (processEventsPty st es).currentTextBuffer = concatTexts new := by
      rw [h2, hb, strEmpty_append]
    have hbne : (processEventsPty st es).currentTextBuffer ≠ "" := by
      rw [hbuf]
      exact hcne
    simp [processEventPty, hbne, h3, hbuf]
    rw [if_neg hcne]
  · obtain ⟨new, h1, h2, h3⟩ := processEventsPipe_no_stop es st hns
    have hdrop : (processEventsPipe st es).partials.drop st.partials.length = new := by
      rw [h1]
      exact List.drop_left _ _
    rw [hdrop]
    intro hcne
    have hbuf : (processEventsPipe st es).currentTextBuffer = concatTexts new := by
      rw [h2, hb, strEmpty_append]
    have hbne : (processEventsPipe st es).currentTextBuffer ≠ "" := by
      rw [hbuf]
      exact hcne
    simp [processEventPipe, hbne, h3, hbuf]
    rw [if_neg hcne]

/-- Witness for C2 on the block `["Hello", " world"]` followed by one stop. -/
theorem c2_partials_concat_block_witness :
    (processEventPty
        (processEventsPty (RunState.init "s")
          [.content_block_delta "text_delta" "Hello",
           .content_block_delta "text_delta" " world"])
        .content_block_stop).blocks = ["Hello world"] ∧
    (processEventPipe
        (processEventsPipe (RunState.init "s")
          [.content_block_delta "text_delta" "Hello",
           .content_block_delta "text_delta" " world"])
        .content_block_stop).blocks = ["Hello world"] := by
  have h := c2_partials_concat_block (RunState.init "s")
    [.content_block_delta "text_delta" "Hello", .content_block_delta "text_delta" " world"]
    rfl (by decide)
  constructor
  · have h1 := h.1 (by decide)
    rw [h1]
    decide
  · have h2 := h.2 (by decide)
    rw [h2]
    decide

/-- C3 (amended): the pty runner adds the terminal `result` event's text to
the collected texts only when nothing was collected incrementally (no
completed blocks and no pending text buffer); the pipe runner instead adds
the result text whenever it is non-empty and not already among the collected
texts, even when text was already collected. -/
theorem c3_result_fallback (st : RunState) (res : Option ResultPayload) (sid : String) :
    ((st.collectedTexts ≠ [] ∨ st.currentTextBuffer ≠ "") →
        (processEventPty st (.result res sid)).collectedTexts = st.collectedTexts) ∧
    (st.collectedTexts = [] → st.currentTextBuffer = "" → ptyResultText res ≠ "" →
        (processEventPty st (.result res sid)).collectedTexts = [ptyResultText res]) ∧
    (pipeResultText res ≠ "" → pipeResultText res ∉ st.collectedTexts →
        (processEventPipe st (.result res sid)).collectedTexts
          = st.collectedTexts ++ [pipeResultText res]) ∧
    ((pipeResultText res = "" ∨ pipeResultText res ∈ st.collectedTexts) →
        (processEventPipe st (.result res sid)).collectedTexts = st.collectedTexts) := by
  refine ⟨?_, ?_, ?_, ?_⟩
  · intro hsome
    rcases hsome with h | h <;>
      by_cases hsid : sid = "" <;>
        simp [processEventPty, hsid, h]
  · intro hcoll hbuf hne
    by_cases hsid : sid = "" <;>
      simp [processEventPty, hsid, hcoll, hbuf, hne]
  · intro hne hnotin
    by_cases hsid : sid = "" <;>
      simp [processEventPipe, hsid, hne, hnotin]
  · intro hor
    rcases hor with h | h <;>
      by_cases hsid : sid = "" <;>
        simp [processEventPipe, hsid, h]

/-- Witness for C3: with `"A"` already collected, the pty runner ignores the
result text `"B"`; with nothing collected the pty runner falls back to it;
the pipe runner appends a fresh result text and skips a duplicate one. -/
theorem c3_result_fallback_witness :
    (processEventPty ⟨["A"], "", "s", ["A"], ["A"], []⟩
        (.result (some (.obj "B")) "")).collectedTexts = ["A"] ∧
    (processEventPty (RunState.init "s")
        (.result (some (.obj "B")) "")).collectedTexts = ["B"] ∧
    (processEventPipe ⟨["A"], "", "s", ["A"], ["A"], []⟩
        (.result (some (.obj "A")) "")).collectedTexts = ["A"] := by
  refine ⟨?_, ?_, ?_⟩
  · exact (c3_result_fallback ⟨["A"], "", "s", ["A"], ["A"], []⟩
      (some (.obj "B")) "").1 (by decide)
  · exact (c3_result_fallback (RunState.init "s") (some (.obj "B")) "").2.1
      rfl rfl (by decide)
  · exact (c3_result_fallback ⟨["A"], "", "s", ["A"], ["A"], []⟩
      (some (.obj "A")) "").2.2.2 (by decide)

/-- C3 counterexample: the pipe runner appends the result event's text even
though text was already collected from a block-completion event — the claim's
"contributes nothing once something was collected" fails on the pipe
implementation. -/
theorem c3_result_fallback_counterexample :
    (⟨["A"], "", "s", ["A"], ["A"], []⟩ : RunState).collectedTexts = ["A"] ∧
    (processEventPipe ⟨["A"], "", "s", ["A"], ["A"], []⟩
        (.result (some (.obj "B")) "")).collectedTexts = ["A", "B"] := by
  constructor
  · rfl
  · decide

theorem jsSplitNl_ne_nil (l : List Char) : jsSplitNl l ≠ [] := by
  cases l with
  | nil => simp [jsSplitNl]
  | cons c rest =>
      simp only [jsSplitNl]
      cases jsSplitNl rest with
      | nil => simp
      | cons seg segs =>
          by_cases hc : c = '\n' <;> simp [hc]

theorem jsSplitNl_append_nl (l : List Char) :
    jsSplitNl (l ++ ['\n']) = jsSplitNl l ++ [[]] := by
  induction l with
  | nil => rfl
  | cons c rest ih =>
      simp only [List.cons_append, jsSplitNl, List.append_eq]
      rw [ih]
      cases hr : jsSplitNl rest with
      | nil => exact absurd hr (jsSplitNl_ne_nil rest)
      | cons seg segs =>
          simp only [List.cons_append]
          by_cases hc : c = '\n' <;> simp [hc]

/-- C9: an unterminated final line still buffered at process exit is processed
exactly as it would have been with a terminating newline (it can contribute
to collected texts and payloads), and a pending per-block text buffer is
always flushed into the collected texts at exit — in the pty runner's exit
handler and in the pipe runner's close handler alike. -/
theorem c9_exit_flush (parse : String → Option CliStreamEvent) (st : PtyIoState)
    (s : String)
    (hbuf : st.dataBuffer = "")
    (hsplit : jsSplitNl s.data = [s.data])
    (htrim : jsTrim s = s)
    (hcr : stripTrailingCR s = s)
    (hne : s ≠ "") :
    onExitFlushPty parse (onDataPty parse st s)
        = onExitFlushPty parse (onDataPty parse st (s ++ "\n")) ∧
    (∀ st2 : PtyIoState,
      (if jsTrim st2.dataBuffer ≠ "" then
          processLinePty parse st2.run (jsTrim st2.dataBuffer)
        else st2.run).currentTextBuffer ≠ "" →
      (onExitFlushPty parse st2).collectedTexts
        = (if jsTrim st2.dataBuffer ≠ "" then
              processLinePty parse st2.run (jsTrim st2.dataBuffer)
            else st2.run).collectedTexts
          ++ [(if jsTrim st2.dataBuffer ≠ "" then
                  processLinePty parse st2.run (jsTrim st2.dataBuffer)
                else st2.run).currentTextBuffer]) ∧
    (∀ st3 : RunState, ∀ aborted : Bool, ∀ stderr : String,
      st3.currentTextBuffer ≠ "" →
      Payload.mk st3.currentTextBuffer false
        ∈ ((closeResultPipe st3 aborted 0 stderr).payloads.getD [])) := by
  refine ⟨?_, ?_, ?_⟩
  · have hcat : st.dataBuffer ++ s = s := by
      rw [hbuf]
      exact strEmpty_append s
    have hcat2 : st.dataBuffer ++ (s ++ "\n") = s ++ "\n" := by
      rw [hbuf]
      exact strEmpty_append _
    have hdata2 : (s ++ "\n").data = s.data ++ ['\n'] := by
      rw [strData_append]
    have h1 : onDataPty parse st s = ⟨st.run, s⟩ := by
      simp only [onDataPty, hcat, hsplit]
      simp [strMk_data]
    have h2 : onDataPty parse st (s ++ "\n")
        = ⟨processLinePty parse st.run s, ""⟩ := by
      simp only [onDataPty, hcat2, hdata2, jsSplitNl_append_nl, hsplit]
      simp [strMk_data, hcr]
    rw [h1, h2]
    have hjt : jsTrim "" = "" := rfl
    simp only [onExitFlushPty]
    simp [htrim, hne, hjt]
  · intro st2 hne2
    simp only [onExitFlushPty]
    rw [if_pos hne2]
  · intro st3 aborted stderr hne3
    simp [closeResultPipe, hne3]

/-- A concrete stand-in for `JSON.parse` mapping the line `"dline"` to one
text delta, used to instantiate the transport theorems at concrete inputs. -/
def parseDemo : String → Option CliStreamEvent := fun l =>
  if l = "dline" then some (.content_block_delta "text_delta" "tail") else none

/-- Witness for C9: the unterminated final line `"dline"` is processed like a
terminated one; the pending buffer `"tail"` reaches the collected texts; the
pipe close handler keeps the pending buffer as a payload. -/
theorem c9_exit_flush_witness :
    onExitFlushPty parseDemo (onDataPty parseDemo ⟨RunState.init "s", ""⟩ "dline")
        = onExitFlushPty parseDemo
            (onDataPty parseDemo ⟨RunState.init "s", ""⟩ ("dline" ++ "\n")) ∧
    (onExitFlushPty parseDemo ⟨RunState.init "s", "dline"⟩).collectedTexts = ["tail"] ∧
    Payload.mk "tail" false
        ∈ ((closeResultPipe ⟨[], "tail", "s", [], [], []⟩ false 0 "x").payloads.getD []) := by
  have h := c9_exit_flush parseDemo ⟨RunState.init "s", ""⟩ "dline" rfl (by decide)
    (by decide) (by decide) (by decide)
  refine ⟨h.1, ?_, h.2.2 ⟨[], "tail", "s", [], [], []⟩ false "x" (by decide)⟩
  have h2 := h.2.1 ⟨RunState.init "s", "dline"⟩ (by decide)
  rw [h2]
  decide

/-- C10 (amended): in `cli-runner.ts` and in `pi-cli-runner/run.ts` a run
whose output text trims to the empty string yields a result with no payload
list at all; in the streaming pipe runner the payload list is absent exactly
when no texts were collected — it does not trim, so whitespace-only collected
texts still produce payload entries. -/
theorem c10_empty_payloads (s stderr : String) (st : RunState) (killed aborted : Bool)
    (code : Int) :
    (jsTrim s = "" → cliRunnerAssemblePayloads (some s) = none) ∧
    cliRunnerAssemblePayloads none = none ∧
    (jsTrim s = "" → (piCliRunResult 0 killed s stderr "sid").payloads = none) ∧
    (st.collectedTexts = [] → st.currentTextBuffer = "" →
        (closeResultPipe st aborted code "").payloads = none) := by
  refine ⟨?_, rfl, ?_, ?_⟩
  · intro htrim
    simp [cliRunnerAssemblePayloads, htrim]
  · intro htrim
    simp [piCliRunResult, htrim]
  · intro hcoll hbuf
    simp [closeResultPipe, hcoll, hbuf]

/-- Witness for C10 at whitespace-only output `"  "` and an empty collected
state. -/
theorem c10_empty_payloads_witness :
    cliRunnerAssemblePayloads (some "  ") = none ∧
    (piCliRunResult 0 false "  " "" "sid").payloads = none ∧
    (closeResultPipe (RunState.init "s") false 0 "").payloads = none := by
  have h := c10_empty_payloads "  " "" (RunState.init "s") false false 0
  exact ⟨h.1 (by decide), h.2.2.1 (by decide), h.2.2.2 rfl rfl⟩

/-- C10 counterexample: in the pipe runner a block consisting of the single
whitespace delta `" "` produces a collected text that trims to empty, yet the
close-time result carries a payload entry with that whitespace text instead
of an absent payload list. -/
theorem c10_empty_payloads_counterexample :
    jsTrim " " = "" ∧
    (closeResultPipe
        (processEventsPipe (RunState.init "s")
          [.content_block_delta "text_delta" " ", .content_block_stop])
        false 0 "").payloads = some [⟨" ", false⟩] := by
  constructor
  · decide
  · decide

end OpenClaw
